import Mathlib

/-!
Verification of the ESY SunHome binary-protocol core: a shallow embedding
in Lean 4 of the message-header codecs, the payload segment parsers, the
derived-telemetry engine, the snapshot merge, the command builders and the
mode-change state machine, together with theorems settling the stated
properties of each component.

Bytes are modelled as `Nat` (values `< 256` where byte strings are
well-formed) and byte strings as `List Nat`.  Register values and derived
telemetry quantities are modelled as `Int`; Python's falsy-coalescing
`x or y` on optional numbers is modelled explicitly.  The `Proto`
namespace embeds custom_components/esy_sunhome/protocol.py (with the
coordinator merge and the select-entity state machine alongside), the
`Esy` namespace embeds esy_inverter_protocol.py.
-/

namespace ESY

/-- Byte at index `i` of a byte string, `0` past the end (reads in the
source are always bounds-checked before use). -/
def byteAt (l : List Nat) (i : Nat) : Nat := l.getD i 0

/-- Big-endian 16-bit value of two bytes, as in bytes_to_uint16_be. -/
def u16 (b0 b1 : Nat) : Nat := b0 * 256 + b1

/-- Big-endian 32-bit value of four bytes, as in bytes_to_uint32_be /
struct.unpack of a 4-byte slice. -/
def u32 (b0 b1 b2 b3 : Nat) : Nat := b0 * 16777216 + b1 * 65536 + b2 * 256 + b3

/-- Big-endian 2-byte encoding of a 16-bit value (struct.pack of an
unsigned short, and int16_to_bytes_be which masks each byte). -/
def pack16 (n : Nat) : List Nat := [n / 256 % 256, n % 256]

/-- Big-endian 4-byte encoding of a 32-bit value (struct.pack of an
unsigned int; also int32_to_bytes_be on its valid range `n < 2 ^ 31`). -/
def pack32 (n : Nat) : List Nat :=
  [n / 16777216 % 256, n / 65536 % 256, n / 256 % 256, n % 256]

end ESY

namespace Proto

/-! Embedding of custom_components/esy_sunhome/protocol.py. -/

open ESY

/-- MQTT message header structure (protocol.py MsgHeader). -/
structure MsgHeader where
  config_id : Nat
  msg_id : Nat
  user_id : List Nat
  fun_code : Nat
  source_id : Nat
  page_index : Nat
  data_length : Nat
deriving DecidableEq, Repr

/-- MsgHeader.to_bytes of protocol.py: `>I` configId, `>I` msgId, the 8
userId bytes verbatim, funCode byte, sourceId byte, `>H` pageIndex,
`>I` dataLength.  Faithful for a well-formed header (each field within
its packed width, userId exactly 8 bytes); struct.pack raises outside
those ranges. -/
def MsgHeader.to_bytes (h : MsgHeader) : List Nat :=
  pack32 h.config_id ++ pack32 h.msg_id ++ h.user_id ++
    [h.fun_code, h.source_id] ++ pack16 h.page_index ++ pack32 h.data_length

/-- MsgHeader.from_bytes of protocol.py: None when fewer than 24 bytes,
otherwise the big-endian fields at fixed offsets 0, 4, 8, 16, 17, 18, 20
(the 24-cons pattern is exactly "length at least 24"; the tail is the
payload, ignored by the header decode). -/
def MsgHeader.from_bytes (data : List Nat) : Option MsgHeader :=
  match data with
  | c0 :: c1 :: c2 :: c3 :: m0 :: m1 :: m2 :: m3 ::
    t0 :: t1 :: t2 :: t3 :: t4 :: t5 :: t6 :: t7 ::
    fc :: si :: p0 :: p1 :: d0 :: d1 :: d2 :: d3 :: _ =>
      some ⟨u32 c0 c1 c2 c3, u32 m0 m1 m2 m3, [t0, t1, t2, t3, t4, t5, t6, t7],
        fc, si, u16 p0 p1, u32 d0 d1 d2 d3⟩
  | _ => none

/-- Well-formed header: every field within the width the codec packs it
at, and the userId an 8-byte string. -/
def MsgHeader.WF (h : MsgHeader) : Prop :=
  h.config_id < 2 ^ 32 ∧ h.msg_id < 2 ^ 32 ∧ h.user_id.length = 8 ∧
    (∀ b ∈ h.user_id, b < 256) ∧ h.fun_code < 256 ∧ h.source_id < 256 ∧
    h.page_index < 2 ^ 16 ∧ h.data_length < 2 ^ 32

/-- A payload segment (protocol.py ParamSegment). -/
structure ParamSegment where
  segment_id : Nat
  segment_type : Nat
  segment_address : Nat
  params_num : Nat
  values : List Nat
deriving DecidableEq, Repr

/-- The segment loop of PayloadParser.parse in protocol.py, consuming the
buffer after the 2-byte count.  The position-based reads of the source
move strictly forward, so they are embedded as consumption of the
remaining buffer: a segment needs an 8-byte header (four big-endian
16-bit fields) and then `params_num * 2` value bytes; if either is not
fully available the loop breaks, returning the segments collected so
far and discarding the rest. -/
def parseSegs : Nat → List Nat → List ParamSegment
  | 0, _ => []
  | n + 1, i0 :: i1 :: t0 :: t1 :: a0 :: a1 :: p0 :: p1 :: rest =>
      let pnum := u16 p0 p1
      if 2 * pnum ≤ rest.length then
        ⟨u16 i0 i1, u16 t0 t1, u16 a0 a1, pnum, rest.take (2 * pnum)⟩ ::
          parseSegs n (rest.drop (2 * pnum))
      else []
  | _ + 1, _ => []

/-- PayloadParser.parse of protocol.py: empty result under 2 bytes,
otherwise the first two bytes are the declared segment count and the
loop runs at most that many times. -/
def PayloadParser.parse (payload : List Nat) : List ParamSegment :=
  match payload with
  | c0 :: c1 :: rest => parseSegs (u16 c0 c1) rest
  | _ => []

/-- The payload slice taken in parse_message: `data[24 : 24 + dataLength]`,
which Python slicing truncates to the available bytes. -/
def extractPayload (data : List Nat) (dataLength : Nat) : List Nat :=
  (data.drop 24).take dataLength

/-! Derived-value computation (_compute_derived_values in protocol.py),
restricted to the PV, grid and battery sections.  The raw-value snapshot
is the decoded telemetry dict; only the keys this computation reads are
modelled, each as an optional integer (absent key = none). -/

/-- The raw-value snapshot keys read by the PV, grid and battery
sections of _compute_derived_values. -/
structure RawSnapshot where
  pv1Power : Option Int
  pv2Power : Option Int
  ct2Power : Option Int
  energyFlowPvTotalPower : Option Int
  ct1Power : Option Int
  gridActivePower : Option Int
  energyFlowGridPower : Option Int
  energyFlowGrid : Option Int
  batteryPower : Option Int
  energyFlowBatt : Option Int
  batteryStatus : Option Int
deriving DecidableEq, Repr

/-- Python `values.get(k, 0) or 0` on an optional number: an absent key
and a stored zero both give 0. -/
def getZ (x : Option Int) : Int :=
  match x with
  | none => 0
  | some v => v

/-- Python falsy-coalescing `x or y` where `x` is an optional number:
`y` when `x` is absent or zero, else the stored value. -/
def orElseZ (x : Option Int) (y : Int) : Int :=
  match x with
  | none => y
  | some v => if v = 0 then y else v

/-- Python `a or b` on two integers: `b` when `a` is zero. -/
def orI (a b : Int) : Int := if a = 0 then b else a

/-- The derived fields produced by the PV, grid and battery sections. -/
structure Derived where
  pvPower : Int
  dcPvPower : Int
  acPvPower : Int
  pv1Power : Int
  pv2Power : Int
  pvLine : Int
  gridPower : Int
  gridImport : Int
  gridExport : Int
  gridLine : Int
  batteryPower : Int
  batteryStatus : Int
  batteryImport : Int
  batteryExport : Int
  batteryStatusText : String
  batteryLine : Int
deriving DecidableEq, Repr

/-- The grid-power source selection of _compute_derived_values: ct1Power
when its magnitude exceeds 10, else gridActivePower over the same test,
else the energy-flow grid aggregate, else ct2Power only when below -10,
else the falsy-coalescing fallback `ct1 or gridActive or energyFlow`. -/
def gridSelected (s : RawSnapshot) : Int :=
  let ct1 := getZ s.ct1Power
  let gap := getZ s.gridActivePower
  let efg := orElseZ s.energyFlowGridPower (orElseZ s.energyFlowGrid 0)
  let ct2 := getZ s.ct2Power
  if 10 < |ct1| then ct1
  else if 10 < |gap| then gap
  else if 10 < |efg| then efg
  else if ct2 < -10 then ct2
  else orI ct1 (orI gap efg)

/-- The specification reading of the grid-source rule, stated
independently of the code's branch structure: the ordered candidate
list — primary CT, active-grid-power register, energy-flow aggregate,
secondary CT gated on being negative — each paired with its
noise-threshold test, and the first passing candidate selected. -/
def specGridPick (s : RawSnapshot) : Option Int :=
  let ct1 := getZ s.ct1Power
  let gap := getZ s.gridActivePower
  let efg := orElseZ s.energyFlowGridPower (orElseZ s.energyFlowGrid 0)
  let ct2 := getZ s.ct2Power
  (List.find? (fun c => c.2)
    [(ct1, decide (10 < |ct1|)), (gap, decide (10 < |gap|)),
     (efg, decide (10 < |efg|)), (ct2, decide (ct2 < 0 ∧ 10 < |ct2|))]).map
    Prod.fst

/-- The battery status text table (BATTERY_STATUS_TEXT together with the
branch structure of the status classification; status 6 falls back to
"Charging" through dict.get's default). -/
def batteryStatusTextOf (status : Int) : String :=
  if status = 5 then "Discharging"
  else if status = 1 then "Charging"
  else if status = 2 then "Charge Topping"
  else if status = 3 then "Float Charge"
  else if status = 6 then "Charging"
  else if status = 4 then "Full"
  else "Standby"

/-- The raw battery power source chain of the battery section:
`values.get("batteryPower") or values.get("energyFlowBatt", 0) or 0`. -/
def rawBattPower (s : RawSnapshot) : Int :=
  orElseZ s.batteryPower (orElseZ s.energyFlowBatt 0)

/-- The PV, grid and battery sections of _compute_derived_values,
translated branch for branch. -/
def computeDerived (s : RawSnapshot) : Derived :=
  -- PV section
  let pv1 := getZ s.pv1Power
  let pv2 := getZ s.pv2Power
  let dcPv := pv1 + pv2
  let ct2 := getZ s.ct2Power
  let acPv := max 0 ct2
  let energyFlowPv := getZ s.energyFlowPvTotalPower
  let totalPv := if 0 < dcPv ∨ 0 < acPv then dcPv + acPv else energyFlowPv
  -- grid section
  let gridPowerSel := gridSelected s
  let gridImport := if gridPowerSel < 0 then |gridPowerSel| else 0
  let gridExport := if gridPowerSel < 0 then 0
    else if 0 < gridPowerSel then gridPowerSel else 0
  let gridLine := if gridPowerSel = 0 then 0 else 1
  -- battery section
  let rawBatt := rawBattPower s
  let battStatus := getZ s.batteryStatus
  let isCharging := battStatus = 1 ∨ battStatus = 2 ∨ battStatus = 3 ∨ battStatus = 6
  let isDischarging := battStatus = 5
  let battPower := |rawBatt|
  let forcedStandby := battPower = 0 ∧ battStatus ≠ 4
  let statusText := if forcedStandby then "Standby" else batteryStatusTextOf battStatus
  let battDischargeActive := isDischarging ∧ ¬forcedStandby ∧ 0 < battPower
  let battChargeActive := isCharging ∧ ¬forcedStandby ∧ 0 < battPower
  { pvPower := totalPv
    dcPvPower := dcPv
    acPvPower := acPv
    pv1Power := pv1
    pv2Power := pv2
    pvLine := if 10 < totalPv then 1 else 0
    gridPower := -gridPowerSel
    gridImport := gridImport
    gridExport := gridExport
    gridLine := gridLine
    batteryPower := battPower
    batteryStatus := battStatus
    batteryImport := if battChargeActive then battPower else 0
    batteryExport := if battDischargeActive then battPower else 0
    batteryStatusText := statusText
    batteryLine := if battDischargeActive then 1 else if battChargeActive then 2 else 0 }

/-- The default 8-byte userId tag of single-register write commands in
protocol.py (FF FF FF FF FF FF FC 14). -/
def writeUserId : List Nat := [255, 255, 255, 255, 255, 255, 252, 20]

/-- ESYCommandBuilder.build_write_command of protocol.py: payload is
`>HHHH` of operation count 1, the register address, value count 1 and
the value; header has funCode 0x00, sourceId 0x10, pageIndex 0x0800 and
dataLength the payload length; the frame is header bytes followed by
the payload. -/
def build_write_command (register_address value : Nat) (user_id : List Nat)
    (msg_id config_id : Nat) : List Nat :=
  let payload := pack16 1 ++ pack16 register_address ++ pack16 1 ++ pack16 value
  (MsgHeader.to_bytes ⟨config_id, msg_id, user_id, 0, 16, 2048, payload.length⟩)
    ++ payload

end Proto

namespace Esy

/-! Embedding of esy_inverter_protocol.py. -/

open ESY

/-- MQTT message header structure (esy_inverter_protocol.py MsgHeader). -/
structure MsgHeader where
  config_id : Nat
  msg_id : Nat
  user_id : List Nat
  fun_code : Nat
  source_id : Nat
  page_index : Nat
  data_length : Nat
deriving DecidableEq, Repr

/-- The ljust-to-8 padding applied to the userId in this codec's
to_bytes: truncate to 8 bytes and pad on the right with zero bytes. -/
def padTo8 (u : List Nat) : List Nat :=
  u.take 8 ++ List.replicate (8 - (u.take 8).length) 0

/-- MsgHeader.to_bytes of esy_inverter_protocol.py: configId and msgId
via int32_to_bytes_be, the padded userId, funCode `& 0xFF`, the sourceId
stored shifted left by four bits (`(source_id << 4) & 0xFF`), pageIndex
`& 0xFF` as one byte, three reserved zero bytes, and dataLength via
int16_to_bytes_be at offset 22.  int32_to_bytes_be is faithful for
values below `2 ^ 31` (struct.pack of a signed int raises above). -/
def MsgHeader.to_bytes (h : MsgHeader) : List Nat :=
  pack32 h.config_id ++ pack32 h.msg_id ++ padTo8 h.user_id ++
    [h.fun_code % 256, h.source_id * 16 % 256, h.page_index % 256, 0, 0, 0] ++
    pack16 h.data_length

/-- MsgHeader.from_bytes of esy_inverter_protocol.py: None when fewer
than 24 bytes, otherwise configId at 0, msgId at 4, userId at 8..15,
funCode at 16, sourceId read from byte 17 as stored (not shifted back),
pageIndex as the single byte 18, bytes 19..21 reserved, dataLength as
the 16-bit value at 22. -/
def MsgHeader.from_bytes (data : List Nat) : Option MsgHeader :=
  match data with
  | c0 :: c1 :: c2 :: c3 :: m0 :: m1 :: m2 :: m3 ::
    t0 :: t1 :: t2 :: t3 :: t4 :: t5 :: t6 :: t7 ::
    fc :: si :: pi :: _ :: _ :: _ :: d0 :: d1 :: _ =>
      some ⟨u32 c0 c1 c2 c3, u32 m0 m1 m2 m3, [t0, t1, t2, t3, t4, t5, t6, t7],
        fc, si, pi, u16 d0 d1⟩
  | _ => none

/-- Well-formed header for this codec: configId and msgId within the
signed 32-bit packing range, userId an 8-byte string, one-byte funCode,
sourceId and pageIndex, 16-bit dataLength. -/
def MsgHeader.WF (h : MsgHeader) : Prop :=
  h.config_id < 2 ^ 31 ∧ h.msg_id < 2 ^ 31 ∧ h.user_id.length = 8 ∧
    (∀ b ∈ h.user_id, b < 256) ∧ h.fun_code < 256 ∧ h.source_id < 256 ∧
    h.page_index < 256 ∧ h.data_length < 2 ^ 16

/-- A payload segment (esy_inverter_protocol.py ParamSegment; the fields
the payload parser fills). -/
structure ParamSegment where
  segment_id : Nat
  segment_type : Nat
  segment_address : Nat
  params_num : Nat
  values : List Nat
deriving DecidableEq, Repr

/-- The segment loop of PayloadParser.parse_params_list in
esy_inverter_protocol.py.  It breaks only when the 8-byte segment header
cannot be read; when the `params_num * 2` value bytes are not fully
available it leaves `values` empty, does not advance past the header,
and still appends the segment before continuing the loop. -/
def parseSegs : Nat → List Nat → List ParamSegment
  | 0, _ => []
  | n + 1, i0 :: i1 :: t0 :: t1 :: a0 :: a1 :: p0 :: p1 :: rest =>
      let pnum := u16 p0 p1
      if 2 * pnum ≤ rest.length then
        ⟨u16 i0 i1, u16 t0 t1, u16 a0 a1, pnum, rest.take (2 * pnum)⟩ ::
          parseSegs n (rest.drop (2 * pnum))
      else
        ⟨u16 i0 i1, u16 t0 t1, u16 a0 a1, pnum, []⟩ :: parseSegs n rest
  | _ + 1, _ => []

/-- parse_params_list of esy_inverter_protocol.py: the declared segment
count (0 when fewer than 2 bytes are available) and the parsed
segments. -/
def parse_params_list (data : List Nat) : Nat × List ParamSegment :=
  match data with
  | c0 :: c1 :: rest => (u16 c0 c1, parseSegs (u16 c0 c1) rest)
  | _ => (0, [])

/-- ESYCommandBuilder.build_write_command of esy_inverter_protocol.py:
the header carries funCode WRITE_SINGLE (6 by default), sourceId 0x02,
pageIndex 0 and dataLength 4; the payload is only the 2-byte address
and the 2-byte masked value — no operation-count or value-count
fields. -/
def build_write_command (register_address value : Nat) (user_id : List Nat)
    (msg_id config_id : Nat) : List Nat :=
  (MsgHeader.to_bytes ⟨config_id, msg_id, user_id, 6, 2, 0, 4⟩)
    ++ pack16 register_address ++ pack16 (value % 65536)

end Esy

namespace Scale

/-! Register-value scaling (the coefficient application in
_build_telemetry_data of protocol.py, `round(raw_value *
reg.coefficient, 3)` where RegisterDefinition.coefficient is a Python
float).  The claimed semantics — exact rational scaling — is embedded
here; the divergence theorems relate it to what any binary
floating-point computation can store. -/

/-- The claimed decoded value: the signed-or-unsigned raw register
integer times the definition's coefficient, in exact rational
arithmetic. -/
def exactScaledValue (raw : Int) (coefficient : ℚ) : ℚ := raw * coefficient

/-- A dyadic rational: representable as an integer over a power of two.
Every finite IEEE-754 binary64 value (the type of Python float, in
which protocol.py computes `raw_value * reg.coefficient` and
`round(·, 3)`) is of this form. -/
def dyadicRational (q : ℚ) : Prop := ∃ (m : ℤ) (e : ℕ), q * 2 ^ e = (m : ℚ)

/-- Sign handling of _build_telemetry_data for a single register word:
a signed register word above 32767 is reinterpreted via
two's-complement. -/
def signedRawValue (dataType : String) (rawUnsigned : Nat) : Int :=
  if dataType = "signed" ∧ 32767 < rawUnsigned then
    (rawUnsigned : Int) - 65536
  else (rawUnsigned : Int)

end Scale

namespace Merge

/-! The coordinator's partial-update merge (_process_telemetry in
coordinator.py): `self._last_data.update(data)` on a Python dict.
Dicts are modelled as insertion-ordered association lists with unique
keys; dict.update sets each key of the frame in turn. -/

/-- Python `d[k] = v`: overwrite in place if the key exists, else append
at the end (insertion order). -/
def dictSet {α : Type} (d : List (String × α)) (k : String) (v : α) :
    List (String × α) :=
  match d with
  | [] => [(k, v)]
  | (k', v') :: rest =>
      if k' = k then (k', v) :: rest else (k', v') :: dictSet rest k v

/-- Python `old.update(new)`: set every key-value pair of `new` into
`old`, in order. -/
def dictUpdate {α : Type} (old new : List (String × α)) : List (String × α) :=
  new.foldl (fun acc kv => dictSet acc kv.1 kv.2) old

/-- Python `d.get(k)`: the value at the first (for unique keys, only)
occurrence of the key. -/
def dictGet {α : Type} (d : List (String × α)) (k : String) : Option α :=
  (d.find? (fun kv => kv.1 == k)).map Prod.snd

end Merge

namespace Mode

/-! The mode-change confirmation state machine of select.py (ModeSelect),
modelled as pure transitions on the entity's mutable fields.  External
effects (event firing, logging, the scheduled timer object) are
abstracted: the timer's presence is a flag, and the success of a
dispatch (MQTT publish or API call) is an input to the transition. -/

/-- MAX_RETRIES of select.py. -/
def maxRetries : Nat := 2

/-- The mutable fields of ModeSelect that the mode-change logic reads
and writes. -/
structure State where
  pendingModeName : Option String
  pendingModeKey : Option Int
  retryCount : Nat
  isLoading : Bool
  currentOption : String
  actualMode : Option String
  timerArmed : Bool
deriving DecidableEq, Repr

/-- Python truthiness of an optional string (None and the empty string
are falsy). -/
def truthy (o : Option String) : Bool :=
  match o with
  | none => false
  | some s => !s.isEmpty

/-- BatteryState.modes_to_mqtt via get_mode_key: display name to
wire-level write code. -/
def modesToMqtt (name : String) : Option Int :=
  if name = "Regular Mode" then some 1
  else if name = "Emergency Mode" then some 4
  else if name = "Electricity Sell Mode" then some 3
  else if name = "Battery Energy Management" then some 5
  else none

/-- The initial entity state: the displayed option starts at the first
entry of the dropdown options ("Regular Mode"), nothing pending, no
telemetry mode observed yet. -/
def initialState : State :=
  { pendingModeName := none
    pendingModeKey := none
    retryCount := 0
    isLoading := false
    currentOption := "Regular Mode"
    actualMode := none
    timerArmed := false }

/-- _clear_pending_state: no-op when nothing is pending and not loading,
otherwise clear the pending fields, reset the retry counter, stop
loading and cancel any outstanding timer. -/
def clearPending (st : State) : State :=
  if st.pendingModeName = none ∧ st.isLoading = false then st
  else
    { st with
      pendingModeName := none
      pendingModeKey := none
      retryCount := 0
      isLoading := false
      timerArmed := false }

/-- The revert step used on every failure path: restore the displayed
option to the last telemetry-observed mode, but only when one has been
observed (`if self._actual_mqtt_mode_name:`). -/
def revertDisplay (st : State) : State :=
  if truthy st.actualMode then
    { st with currentOption := st.actualMode.getD "" }
  else st

/-- _handle_coordinator_update: absent mode data is ignored; otherwise
the actual telemetry mode is recorded, a matching pending request is
confirmed (display set to the confirmed mode, pending state cleared), a
non-matching one keeps waiting with the optimistic display, and with
nothing pending the display follows telemetry. -/
def handleCoordinatorUpdate (st : State) (mqttModeName : Option String) : State :=
  match mqttModeName with
  | none => st
  | some m =>
      let st1 := { st with actualMode := some m }
      if truthy st1.pendingModeName then
        if st1.pendingModeName = some m then
          clearPending { st1 with currentOption := m }
        else st1
      else { st1 with currentOption := m }

/-- async_select_option followed by _attempt_mode_change: reject names
with no wire code (state unchanged), skip when the requested option is
the actual telemetry mode, otherwise set the display optimistically,
enter the pending state, and dispatch — arming the confirmation timer
on success, or reverting the display and clearing the pending state on
a dispatch failure. -/
def selectOption (st : State) (option : String) (dispatchOk : Bool) : State :=
  match modesToMqtt option with
  | none => st
  | some key =>
      if st.actualMode = some option then st
      else
        let st1 := { st with
          currentOption := option
          pendingModeName := some option
          pendingModeKey := some key
          retryCount := 0
          isLoading := true }
        if dispatchOk then { st1 with timerArmed := true }
        else clearPending (revertDisplay st1)

/-- The _timeout_callback of _schedule_confirmation_timeout: a no-op if
nothing is pending; otherwise the retry counter is incremented, and
either the write is re-issued and the timer re-armed (retries left and
dispatch succeeded), or — on retry-dispatch failure or retry
exhaustion — the display is reverted to the last observed telemetry
mode and the pending state cleared. -/
def timeoutFire (st : State) (dispatchOk : Bool) : State :=
  if ¬truthy st.pendingModeName then st
  else
    let st1 := { st with retryCount := st.retryCount + 1 }
    if st1.retryCount ≤ maxRetries then
      if dispatchOk then { st1 with timerArmed := true }
      else clearPending (revertDisplay st1)
    else clearPending (revertDisplay st1)

end Mode

/-! Theorems.  Helper lemmas first, then one theorem per claim (with
witnesses and counterexamples where applicable). -/

/-- Eight-element destructuring of a length-8 byte string (the userId). -/
theorem exists_eight (u : List Nat) (hu : u.length = 8) :
    ∃ a b c d e f g h, u = [a, b, c, d, e, f, g, h] := by
  match u, hu with
  | [a, b, c, d, e, f, g, h], _ => exact ⟨a, b, c, d, e, f, g, h, rfl⟩

theorem proto_to_bytes_length (h : Proto.MsgHeader) (hu : h.user_id.length = 8) :
    h.to_bytes.length = 24 := by
  simp [Proto.MsgHeader.to_bytes, ESY.pack32, ESY.pack16, hu]

/-- Round trip for the protocol.py codec, with arbitrary payload bytes
following the header: decoding restores every field of a well-formed
header. -/
theorem proto_from_bytes_to_bytes_append (h : Proto.MsgHeader)
    (extra : List Nat) (hw : h.WF) :
    Proto.MsgHeader.from_bytes (h.to_bytes ++ extra) = some h := by
  obtain ⟨hc, hm, hu, _, _, _, hp, hd⟩ := hw
  obtain ⟨c, m, u, f, s, p, d⟩ := h
  obtain ⟨a0, a1, a2, a3, a4, a5, a6, a7, rfl⟩ := exists_eight u hu
  simp only at hc hm hp hd
  simp only [Proto.MsgHeader.to_bytes, ESY.pack32, ESY.pack16, List.cons_append,
    List.nil_append, Proto.MsgHeader.from_bytes, Option.some.injEq,
    Proto.MsgHeader.mk.injEq, ESY.u32, ESY.u16, List.cons.injEq, and_true,
    true_and, and_self]
  omega

/-- Round trip for the protocol.py codec: decoding an encoded well-formed
header restores every field. -/
theorem proto_from_bytes_to_bytes (h : Proto.MsgHeader) (hw : h.WF) :
    Proto.MsgHeader.from_bytes h.to_bytes = some h := by
  have hx := proto_from_bytes_to_bytes_append h [] hw
  simpa using hx

theorem esy_padTo8_eight (a0 a1 a2 a3 a4 a5 a6 a7 : Nat) :
    Esy.padTo8 [a0, a1, a2, a3, a4, a5, a6, a7] =
      [a0, a1, a2, a3, a4, a5, a6, a7] := rfl

theorem esy_to_bytes_length (h : Esy.MsgHeader) : h.to_bytes.length = 24 := by
  simp only [Esy.MsgHeader.to_bytes, Esy.padTo8, ESY.pack32, ESY.pack16,
    List.length_append, List.length_cons, List.length_nil,
    List.length_replicate, List.length_take]
  omega

/-- Decoding an encoded well-formed header of the
esy_inverter_protocol.py codec, with arbitrary payload bytes following:
every field is restored except the sourceId, which comes back as the
stored byte `source_id * 16 % 256` because decode does not undo the
shift that encode applies. -/
theorem esy_from_bytes_to_bytes_append (h : Esy.MsgHeader) (extra : List Nat)
    (hw : h.WF) :
    Esy.MsgHeader.from_bytes (h.to_bytes ++ extra) =
      some ⟨h.config_id, h.msg_id, h.user_id, h.fun_code,
        h.source_id * 16 % 256, h.page_index, h.data_length⟩ := by
  obtain ⟨hc, hm, hu, _, hf, _, hp, hd⟩ := hw
  obtain ⟨c, m, u, f, s, p, d⟩ := h
  obtain ⟨a0, a1, a2, a3, a4, a5, a6, a7, rfl⟩ := exists_eight u hu
  simp only at hc hm hf hp hd
  simp only [Esy.MsgHeader.to_bytes, esy_padTo8_eight, ESY.pack32, ESY.pack16,
    List.cons_append, List.nil_append, Esy.MsgHeader.from_bytes,
    Option.some.injEq, Esy.MsgHeader.mk.injEq, ESY.u32, ESY.u16,
    List.cons.injEq, and_true, true_and, and_self]
  omega

/-- Round trip for the esy_inverter_protocol.py codec holds when the
sourceId is zero: every other well-formed field is restored, and byte 17
stores `source_id * 16 % 256`, which decode returns unshifted. -/
theorem esy_from_bytes_to_bytes (h : Esy.MsgHeader) (hw : h.WF)
    (hs : h.source_id = 0) : Esy.MsgHeader.from_bytes h.to_bytes = some h := by
  have hx := esy_from_bytes_to_bytes_append h [] hw
  obtain ⟨c, m, u, f, s, p, d⟩ := h
  simp only at hs
  subst hs
  simpa using hx

/-- C1 (amended).  Header codec round-trip: the protocol.py MsgHeader
codec encodes every well-formed header (fields within their declared
widths, userId exactly 8 bytes) to exactly 24 bytes and decodes them
back field-for-field, userId byte-wise.  The esy_inverter_protocol.py
MsgHeader codec also encodes to exactly 24 bytes, but its round trip
additionally requires sourceId = 0, because encode stores the sourceId
shifted left by four bits while decode reads the byte back unshifted. -/
theorem claim_C1 :
    (∀ h : Proto.MsgHeader, h.WF →
      h.to_bytes.length = 24 ∧ Proto.MsgHeader.from_bytes h.to_bytes = some h) ∧
    (∀ h : Esy.MsgHeader, h.WF → h.source_id = 0 →
      h.to_bytes.length = 24 ∧ Esy.MsgHeader.from_bytes h.to_bytes = some h) := by
  constructor
  · intro h hw
    exact ⟨proto_to_bytes_length h hw.2.2.1, proto_from_bytes_to_bytes h hw⟩
  · intro h hw hs
    exact ⟨esy_to_bytes_length h, esy_from_bytes_to_bytes h hw hs⟩

/-- C1 counterexample: a well-formed header for the
esy_inverter_protocol.py codec with sourceId 1 decodes from its own
encoding with sourceId 16, so decode(encode(h)) differs from h and the
claimed round trip fails for that codec. -/
theorem claim_C1_counterexample :
    Esy.MsgHeader.WF ⟨1, 2, [9, 9, 9, 9, 9, 9, 9, 9], 3, 1, 4, 5⟩ ∧
    Esy.MsgHeader.from_bytes
        (Esy.MsgHeader.to_bytes ⟨1, 2, [9, 9, 9, 9, 9, 9, 9, 9], 3, 1, 4, 5⟩) =
      some ⟨1, 2, [9, 9, 9, 9, 9, 9, 9, 9], 3, 16, 4, 5⟩ ∧
    Esy.MsgHeader.from_bytes
        (Esy.MsgHeader.to_bytes ⟨1, 2, [9, 9, 9, 9, 9, 9, 9, 9], 3, 1, 4, 5⟩) ≠
      some ⟨1, 2, [9, 9, 9, 9, 9, 9, 9, 9], 3, 1, 4, 5⟩ := by
  refine ⟨?_, by decide, by decide⟩
  simp only [Esy.MsgHeader.WF]
  refine ⟨by norm_num, by norm_num, rfl, by decide, by norm_num, by norm_num,
    by norm_num, by norm_num⟩

/-- C1 witness: the round trips of the amended claim at concrete
well-formed headers (sourceId 0 for the second codec). -/
theorem claim_C1_witness :
    Proto.MsgHeader.from_bytes
        (Proto.MsgHeader.to_bytes ⟨7, 8, Proto.writeUserId, 0, 16, 2048, 8⟩) =
      some ⟨7, 8, Proto.writeUserId, 0, 16, 2048, 8⟩ ∧
    Esy.MsgHeader.from_bytes
        (Esy.MsgHeader.to_bytes ⟨7, 8, [1, 2, 3, 4, 5, 6, 7, 8], 6, 0, 0, 4⟩) =
      some ⟨7, 8, [1, 2, 3, 4, 5, 6, 7, 8], 6, 0, 0, 4⟩ := by
  constructor
  · exact (claim_C1.1 ⟨7, 8, Proto.writeUserId, 0, 16, 2048, 8⟩ (by
      refine ⟨by norm_num, by norm_num, rfl, by decide, by norm_num, by norm_num,
        by norm_num, by norm_num⟩)).2
  · exact (claim_C1.2 ⟨7, 8, [1, 2, 3, 4, 5, 6, 7, 8], 6, 0, 0, 4⟩ (by
      refine ⟨by norm_num, by norm_num, rfl, by decide, by norm_num, by norm_num,
        by norm_num, by norm_num⟩) rfl).2

theorem proto_extractPayload_length (data : List Nat) (dataLength : Nat) :
    (Proto.extractPayload data dataLength).length =
      min dataLength (data.length - 24) := by
  simp [Proto.extractPayload]

/-- Every segment returned by the protocol.py parser carries its full
declared value run: `values` has exactly `params_num * 2` bytes. -/
theorem proto_parseSegs_complete (n : Nat) (buf : List Nat)
    (seg : Proto.ParamSegment) (hm : seg ∈ Proto.parseSegs n buf) :
    seg.values.length = 2 * seg.params_num := by
  induction n generalizing buf seg with
  | zero => simp [Proto.parseSegs] at hm
  | succ n ih =>
    match buf with
    | [] => simp [Proto.parseSegs] at hm
    | [x0] => simp [Proto.parseSegs] at hm
    | [x0, x1] => simp [Proto.parseSegs] at hm
    | [x0, x1, x2] => simp [Proto.parseSegs] at hm
    | [x0, x1, x2, x3] => simp [Proto.parseSegs] at hm
    | [x0, x1, x2, x3, x4] => simp [Proto.parseSegs] at hm
    | [x0, x1, x2, x3, x4, x5] => simp [Proto.parseSegs] at hm
    | [x0, x1, x2, x3, x4, x5, x6] => simp [Proto.parseSegs] at hm
    | i0 :: i1 :: t0 :: t1 :: a0 :: a1 :: p0 :: p1 :: rest =>
      rw [Proto.parseSegs] at hm
      by_cases hle : 2 * ESY.u16 p0 p1 ≤ rest.length
      · simp only [hle, if_true, List.mem_cons] at hm
        rcases hm with rfl | hm
        · simp only [List.length_take]
          omega
        · exact ih _ _ hm
      · simp [hle] at hm

theorem proto_parse_complete (payload : List Nat) (seg : Proto.ParamSegment)
    (hm : seg ∈ Proto.PayloadParser.parse payload) :
    seg.values.length = 2 * seg.params_num := by
  match payload with
  | [] => simp [Proto.PayloadParser.parse] at hm
  | [x0] => simp [Proto.PayloadParser.parse] at hm
  | c0 :: c1 :: rest => exact proto_parseSegs_complete _ _ _ hm

/-- The protocol.py parser never returns more segments than the declared
count. -/
theorem proto_parseSegs_count (n : Nat) (buf : List Nat) :
    (Proto.parseSegs n buf).length ≤ n := by
  induction n generalizing buf with
  | zero => simp [Proto.parseSegs]
  | succ n ih =>
    match buf with
    | [] => simp [Proto.parseSegs]
    | [x0] => simp [Proto.parseSegs]
    | [x0, x1] => simp [Proto.parseSegs]
    | [x0, x1, x2] => simp [Proto.parseSegs]
    | [x0, x1, x2, x3] => simp [Proto.parseSegs]
    | [x0, x1, x2, x3, x4] => simp [Proto.parseSegs]
    | [x0, x1, x2, x3, x4, x5] => simp [Proto.parseSegs]
    | [x0, x1, x2, x3, x4, x5, x6] => simp [Proto.parseSegs]
    | i0 :: i1 :: t0 :: t1 :: a0 :: a1 :: p0 :: p1 :: rest =>
      rw [Proto.parseSegs]
      by_cases hle : 2 * ESY.u16 p0 p1 ≤ rest.length
      · simp only [hle, if_true, List.length_cons]
        exact Nat.succ_le_succ (ih _)
      · simp [hle]

/-- Every segment returned by the esy_inverter_protocol.py parser either
carries its full declared value run or has empty values (the short-run
case, in which the segment is still returned and scanning continues). -/
theorem esy_parseSegs_full_or_empty (n : Nat) (buf : List Nat)
    (seg : Esy.ParamSegment) (hm : seg ∈ Esy.parseSegs n buf) :
    seg.values.length = 2 * seg.params_num ∨ seg.values = [] := by
  induction n generalizing buf seg with
  | zero => simp [Esy.parseSegs] at hm
  | succ n ih =>
    match buf with
    | [] => simp [Esy.parseSegs] at hm
    | [x0] => simp [Esy.parseSegs] at hm
    | [x0, x1] => simp [Esy.parseSegs] at hm
    | [x0, x1, x2] => simp [Esy.parseSegs] at hm
    | [x0, x1, x2, x3] => simp [Esy.parseSegs] at hm
    | [x0, x1, x2, x3, x4] => simp [Esy.parseSegs] at hm
    | [x0, x1, x2, x3, x4, x5] => simp [Esy.parseSegs] at hm
    | [x0, x1, x2, x3, x4, x5, x6] => simp [Esy.parseSegs] at hm
    | i0 :: i1 :: t0 :: t1 :: a0 :: a1 :: p0 :: p1 :: rest =>
      rw [Esy.parseSegs] at hm
      by_cases hle : 2 * ESY.u16 p0 p1 ≤ rest.length
      · simp only [hle, if_true, List.mem_cons] at hm
        rcases hm with rfl | hm
        · left
          simp only [List.length_take]
          omega
        · exact ih _ _ hm
      · simp only [hle, if_false, List.mem_cons] at hm
        rcases hm with rfl | hm
        · right; rfl
        · exact ih _ _ hm

theorem esy_parse_full_or_empty (payload : List Nat) (seg : Esy.ParamSegment)
    (hm : seg ∈ (Esy.parse_params_list payload).2) :
    seg.values.length = 2 * seg.params_num ∨ seg.values = [] := by
  match payload with
  | [] => simp [Esy.parse_params_list] at hm
  | [x0] => simp [Esy.parse_params_list] at hm
  | c0 :: c1 :: rest => exact esy_parseSegs_full_or_empty _ _ _ hm

/-- C2 (amended).  Bounds safety of frame/segment parsing: the payload
slice is truncated to the bytes available after the 24-byte header even
when the declared dataLength is larger; every segment the protocol.py
parser returns carries its complete declared value run (it stops,
returning the segments collected so far, as soon as the next 8-byte
segment header or its `paramCount * 2`-byte value run does not fit, and
never emits a partial or empty-value segment for a short run); the
esy_inverter_protocol.py parser stops only on a short segment header —
on a short value run it still returns the segment, with empty values,
and continues — so its segments carry either their full declared value
run or empty values.  Neither parser reads out of bounds or fails. -/
theorem claim_C2 (data : List Nat) (dataLength : Nat) (payload : List Nat) :
    (Proto.extractPayload data dataLength).length ≤ data.length - 24 ∧
    (Proto.extractPayload data dataLength).length ≤ dataLength ∧
    (∀ seg ∈ Proto.PayloadParser.parse payload,
      seg.values.length = 2 * seg.params_num) ∧
    (∀ seg ∈ (Esy.parse_params_list payload).2,
      seg.values.length = 2 * seg.params_num ∨ seg.values = []) := by
  refine ⟨?_, ?_, ?_, ?_⟩
  · rw [proto_extractPayload_length]; omega
  · rw [proto_extractPayload_length]; omega
  · intro seg hm; exact proto_parse_complete payload seg hm
  · intro seg hm; exact esy_parse_full_or_empty payload seg hm

/-- C2 counterexample: a payload declaring one segment whose header
announces 5 parameters but providing no value bytes.  The protocol.py
parser stops and returns nothing, but the esy_inverter_protocol.py
parser returns the segment with empty values despite its nonzero
declared parameter count — refuting, for that parser, the claim that
parsing stops the moment the value run cannot be satisfied and that no
empty-value segment is returned. -/
theorem claim_C2_counterexample :
    (Esy.parse_params_list [0, 1, 0, 1, 0, 3, 0, 100, 0, 5]).2 =
      [⟨1, 3, 100, 5, []⟩] ∧
    (⟨1, 3, 100, 5, []⟩ : Esy.ParamSegment).params_num ≠ 0 ∧
    Proto.PayloadParser.parse [0, 1, 0, 1, 0, 3, 0, 100, 0, 5] = [] := by decide

/-- C2 witness: on a well-formed one-segment payload the protocol.py
parser returns the segment with its complete two-parameter value run. -/
theorem claim_C2_witness :
    (⟨1, 4, 100, 2, [0, 50, 0, 60]⟩ : Proto.ParamSegment) ∈
      Proto.PayloadParser.parse
        [0, 1, 0, 1, 0, 4, 0, 100, 0, 2, 0, 50, 0, 60] ∧
    (⟨1, 4, 100, 2, [0, 50, 0, 60]⟩ : Proto.ParamSegment).values.length =
      2 * (⟨1, 4, 100, 2, [0, 50, 0, 60]⟩ : Proto.ParamSegment).params_num :=
  ⟨by decide,
    (claim_C2 [] 0 [0, 1, 0, 1, 0, 4, 0, 100, 0, 2, 0, 50, 0, 60]).2.2.1 _
      (by decide)⟩

/-- C3.  The claimed exact-rational scaling at the spec's own example:
the unsigned raw word 1234 scaled by coefficient 0.1 is exactly 123.4 =
617/5 in exact rational arithmetic — and 617/5 is not a dyadic
rational, so no finite binary floating-point value (in particular no
Python float, the type in which protocol.py computes
`round(raw_value * reg.coefficient, 3)`) can ever equal it.  The code
therefore cannot satisfy the claimed exactness at this input. -/
theorem claim_C3 :
    Scale.signedRawValue "unsigned" 1234 = 1234 ∧
    Scale.exactScaledValue 1234 (1 / 10) = 617 / 5 ∧
    ¬Scale.dyadicRational (617 / 5) := by
  refine ⟨by norm_num [Scale.signedRawValue],
    by norm_num [Scale.exactScaledValue], ?_⟩
  rintro ⟨m, e, hme⟩
  have h2 : (617 : ℚ) * 2 ^ e = 5 * m := by
    field_simp at hme
    linarith
  have h3 : (617 : ℤ) * 2 ^ e = 5 * m := by exact_mod_cast h2
  have h4 : (5 : ℤ) ∣ 617 * 2 ^ e := ⟨m, by linarith⟩
  have h5p : Prime (5 : ℤ) := by norm_num
  rcases h5p.dvd_mul.mp h4 with hdv | hdv
  · norm_num at hdv
  · have h2d : (5 : ℤ) ∣ 2 := h5p.dvd_of_dvd_pow hdv
    norm_num at h2d

/-- C4 (amended).  Derived PV power: dcPvPower is pv1Power + pv2Power
(absent keys as 0), acPvPower is max(0, ct2Power), and pvPower is
dcPvPower + acPvPower whenever either of those is POSITIVE (the code
tests `> 0`, not nonzero), otherwise pvPower falls back to the
energyFlowPvTotalPower aggregate. -/
theorem claim_C4 (s : Proto.RawSnapshot) :
    (Proto.computeDerived s).dcPvPower =
      Proto.getZ s.pv1Power + Proto.getZ s.pv2Power ∧
    (Proto.computeDerived s).acPvPower = max 0 (Proto.getZ s.ct2Power) ∧
    (0 < (Proto.computeDerived s).dcPvPower ∨
        0 < (Proto.computeDerived s).acPvPower →
      (Proto.computeDerived s).pvPower =
        (Proto.computeDerived s).dcPvPower +
          (Proto.computeDerived s).acPvPower) ∧
    (¬(0 < (Proto.computeDerived s).dcPvPower ∨
        0 < (Proto.computeDerived s).acPvPower) →
      (Proto.computeDerived s).pvPower =
        Proto.getZ s.energyFlowPvTotalPower) := by
  simp only [Proto.computeDerived]
  refine ⟨trivial, trivial, fun h => ?_, fun h => ?_⟩
  · rw [if_pos h]
  · rw [if_neg h]

/-- C4 counterexample: with pv1Power = -5 (a nonzero DC sum), ct2Power
absent and energyFlowPvTotalPower = 7, the code publishes pvPower = 7
(the fallback), not dcPvPower + acPvPower = -5; so "whenever either is
non-zero" is refuted — the code's test is strict positivity. -/
theorem claim_C4_counterexample :
    (Proto.computeDerived ⟨some (-5), none, none, some 7, none, none, none,
        none, none, none, none⟩).dcPvPower = -5 ∧
    (Proto.computeDerived ⟨some (-5), none, none, some 7, none, none, none,
        none, none, none, none⟩).acPvPower = 0 ∧
    (Proto.computeDerived ⟨some (-5), none, none, some 7, none, none, none,
        none, none, none, none⟩).pvPower = 7 ∧
    (Proto.computeDerived ⟨some (-5), none, none, some 7, none, none, none,
        none, none, none, none⟩).pvPower ≠
      (Proto.computeDerived ⟨some (-5), none, none, some 7, none, none, none,
          none, none, none, none⟩).dcPvPower +
        (Proto.computeDerived ⟨some (-5), none, none, some 7, none, none, none,
            none, none, none, none⟩).acPvPower := by decide

/-- C4 witness: the spec's example pv1 = 300, pv2 = 200, ct2 = -40 takes
the DC-positive branch, so pvPower = dcPvPower + acPvPower (= 500). -/
theorem claim_C4_witness :
    (Proto.computeDerived ⟨some 300, some 200, some (-40), none, none, none,
        none, none, none, none, none⟩).pvPower =
      (Proto.computeDerived ⟨some 300, some 200, some (-40), none, none, none,
          none, none, none, none, none⟩).dcPvPower +
        (Proto.computeDerived ⟨some 300, some 200, some (-40), none, none,
            none, none, none, none, none, none⟩).acPvPower :=
  (claim_C4 ⟨some 300, some 200, some (-40), none, none, none, none, none,
      none, none, none⟩).2.2.1 (by decide)

/-- The negative-gate test on the secondary CT: negative with magnitude
above the noise threshold is exactly "below -10", the code's test. -/
theorem neg_gate (x : Int) : (x < 0 ∧ 10 < |x|) ↔ x < -10 := by
  rw [lt_abs]; omega

/-- The published grid fields as functions of the selected source value,
whenever the selection is nonzero. -/
theorem grid_outputs (s : Proto.RawSnapshot) (v : Int)
    (hsel : Proto.gridSelected s = v) (hv : v ≠ 0) :
    (Proto.computeDerived s).gridPower = -v ∧
    (Proto.computeDerived s).gridImport = (if v < 0 then -v else 0) ∧
    (Proto.computeDerived s).gridExport = (if 0 < v then v else 0) ∧
    (Proto.computeDerived s).gridLine = 1 := by
  rcases lt_trichotomy v 0 with h | h | h
  · have h1 : ¬(0 : Int) < v := by omega
    simp [Proto.computeDerived, hsel, h, h1, hv, abs_of_neg h]
  · exact absurd h hv
  · have h1 : ¬v < (0 : Int) := by omega
    simp [Proto.computeDerived, hsel, h, h1, hv]

/-- The code's grid-source selection agrees with the specification-side
first-passing-candidate rule whenever some candidate passes, and the
selected value is then nonzero. -/
theorem spec_pick_select (s : Proto.RawSnapshot) (v : Int)
    (hp : Proto.specGridPick s = some v) :
    Proto.gridSelected s = v ∧ v ≠ 0 := by
  by_cases h1 : 10 < |Proto.getZ s.ct1Power|
  · simp [Proto.specGridPick, List.find?, h1] at hp
    obtain rfl := hp
    refine ⟨by simp only [Proto.gridSelected]; rw [if_pos h1], ?_⟩
    rw [lt_abs] at h1; omega
  · by_cases h2 : 10 < |Proto.getZ s.gridActivePower|
    · simp [Proto.specGridPick, List.find?, h1, h2] at hp
      obtain rfl := hp
      refine ⟨by simp only [Proto.gridSelected]; rw [if_neg h1, if_pos h2], ?_⟩
      rw [lt_abs] at h2; omega
    · by_cases h3 : 10 <
          |Proto.orElseZ s.energyFlowGridPower (Proto.orElseZ s.energyFlowGrid 0)|
      · simp [Proto.specGridPick, List.find?, h1, h2, h3] at hp
        obtain rfl := hp
        refine ⟨by
          simp only [Proto.gridSelected]
          rw [if_neg h1, if_neg h2, if_pos h3], ?_⟩
        rw [lt_abs] at h3; omega
      · by_cases h4 : Proto.getZ s.ct2Power < -10
        · simp [Proto.specGridPick, List.find?, h1, h2, h3, neg_gate, h4] at hp
          obtain rfl := hp
          exact ⟨by
            simp only [Proto.gridSelected]
            rw [if_neg h1, if_neg h2, if_neg h3, if_pos h4], by omega⟩
        · simp [Proto.specGridPick, List.find?, h1, h2, h3, neg_gate, h4] at hp

/-- C5.  Derived grid power: whenever the specification-side rule — the
first candidate among ct1Power, gridActivePower, the energy-flow grid
aggregate, and ct2Power gated on being negative, whose magnitude
exceeds the noise threshold of 10 — selects a value, the code selects
exactly that value; the published gridPower is its sign inversion
(positive = import, negative = export), and gridImport, gridExport and
the gridLine active-flow flag are derived from the selected value. -/
theorem claim_C5 (s : Proto.RawSnapshot) (v : Int)
    (hp : Proto.specGridPick s = some v) :
    v ≠ 0 ∧
    Proto.gridSelected s = v ∧
    (Proto.computeDerived s).gridPower = -v ∧
    (Proto.computeDerived s).gridImport = (if v < 0 then -v else 0) ∧
    (Proto.computeDerived s).gridExport = (if 0 < v then v else 0) ∧
    (Proto.computeDerived s).gridLine = 1 := by
  obtain ⟨hsel, hv⟩ := spec_pick_select s v hp
  exact ⟨hv, hsel, grid_outputs s v hsel hv⟩

/-- C5 witness: with ct1Power = 500 the first candidate passes, the
selection is 500, and the published gridPower is -500 (ESY positive =
export, flipped to the import-positive convention). -/
theorem claim_C5_witness :
    Proto.specGridPick ⟨none, none, none, none, some 500, none, none, none,
        none, none, none⟩ = some 500 ∧
    (Proto.computeDerived ⟨none, none, none, none, some 500, none, none, none,
        none, none, none⟩).gridPower = -500 :=
  ⟨by decide,
    (claim_C5 ⟨none, none, none, none, some 500, none, none, none, none, none,
        none⟩ 500 (by decide)).2.2.1⟩

/-- C6.  Derived battery direction comes only from the batteryStatus
enum, never from the sign of the raw power register: status 5 with
nonzero raw power classifies as discharging with batteryExport equal to
the absolute raw power and batteryImport 0; statuses 1, 2, 3 and 6 with
nonzero raw power classify as charging with batteryImport equal to the
absolute raw power and batteryExport 0; status 4 classifies as full;
and zero raw power with status other than 4 forces the standby
classification regardless of the status code. -/
theorem claim_C6 (s : Proto.RawSnapshot) :
    (Proto.getZ s.batteryStatus = 5 → Proto.rawBattPower s ≠ 0 →
      (Proto.computeDerived s).batteryExport = |Proto.rawBattPower s| ∧
      (Proto.computeDerived s).batteryImport = 0 ∧
      (Proto.computeDerived s).batteryStatusText = "Discharging") ∧
    ((Proto.getZ s.batteryStatus = 1 ∨ Proto.getZ s.batteryStatus = 2 ∨
        Proto.getZ s.batteryStatus = 3 ∨ Proto.getZ s.batteryStatus = 6) →
      Proto.rawBattPower s ≠ 0 →
      (Proto.computeDerived s).batteryImport = |Proto.rawBattPower s| ∧
      (Proto.computeDerived s).batteryExport = 0 ∧
      ((Proto.computeDerived s).batteryStatusText = "Charging" ∨
        (Proto.computeDerived s).batteryStatusText = "Charge Topping" ∨
        (Proto.computeDerived s).batteryStatusText = "Float Charge")) ∧
    (Proto.getZ s.batteryStatus = 4 →
      (Proto.computeDerived s).batteryStatusText = "Full" ∧
      (Proto.computeDerived s).batteryImport = 0 ∧
      (Proto.computeDerived s).batteryExport = 0) ∧
    (Proto.rawBattPower s = 0 → Proto.getZ s.batteryStatus ≠ 4 →
      (Proto.computeDerived s).batteryStatusText = "Standby" ∧
      (Proto.computeDerived s).batteryImport = 0 ∧
      (Proto.computeDerived s).batteryExport = 0) := by
  refine ⟨fun h5 hnz => ?_, fun hch hnz => ?_, fun h4 => ?_, fun h0 hn4 => ?_⟩
  · have hpos : 0 < |Proto.rawBattPower s| := abs_pos.mpr hnz
    simp [Proto.computeDerived, Proto.batteryStatusTextOf, h5, hpos, hpos.ne']
  · have hpos : 0 < |Proto.rawBattPower s| := abs_pos.mpr hnz
    rcases hch with hst | hst | hst | hst <;>
      simp [Proto.computeDerived, Proto.batteryStatusTextOf, hst, hpos, hpos.ne']
  · simp [Proto.computeDerived, Proto.batteryStatusTextOf, h4]
  · simp [Proto.computeDerived, Proto.batteryStatusTextOf, h0, hn4]

/-- C6 witness: status 5 with raw power 800 publishes batteryExport 800
and batteryImport 0, per the spec example. -/
theorem claim_C6_witness :
    (Proto.computeDerived ⟨none, none, none, none, none, none, none, none,
        some 800, none, some 5⟩).batteryExport = 800 ∧
    (Proto.computeDerived ⟨none, none, none, none, none, none, none, none,
        some 800, none, some 5⟩).batteryImport = 0 := by
  have h := (claim_C6 ⟨none, none, none, none, none, none, none, none,
    some 800, none, some 5⟩).1 (by decide) (by decide)
  exact ⟨h.1.trans (by decide), h.2.1⟩

/-- C10.  Grid decomposition invariant of the derived-value computation:
gridImport and gridExport are nonnegative, at most one of them is
nonzero, the published gridPower equals gridImport - gridExport, and
gridLine is 1 exactly when the selected grid source value is nonzero
(0 otherwise). -/
theorem claim_C10 (s : Proto.RawSnapshot) :
    0 ≤ (Proto.computeDerived s).gridImport ∧
    0 ≤ (Proto.computeDerived s).gridExport ∧
    ((Proto.computeDerived s).gridImport = 0 ∨
      (Proto.computeDerived s).gridExport = 0) ∧
    (Proto.computeDerived s).gridPower =
      (Proto.computeDerived s).gridImport -
        (Proto.computeDerived s).gridExport ∧
    (Proto.computeDerived s).gridLine =
      (if Proto.gridSelected s = 0 then 0 else 1) := by
  have himp : (Proto.computeDerived s).gridImport =
      (if Proto.gridSelected s < 0 then |Proto.gridSelected s| else 0) := rfl
  have hexp : (Proto.computeDerived s).gridExport =
      (if Proto.gridSelected s < 0 then 0
        else if 0 < Proto.gridSelected s then Proto.gridSelected s else 0) := rfl
  have hpow : (Proto.computeDerived s).gridPower = -Proto.gridSelected s := rfl
  have hline : (Proto.computeDerived s).gridLine =
      (if Proto.gridSelected s = 0 then 0 else 1) := rfl
  rw [himp, hexp, hpow, hline]
  rcases lt_trichotomy (Proto.gridSelected s) 0 with h | h | h
  · rw [abs_of_neg h]
    split_ifs <;> omega
  · rw [h]
    norm_num
  · rw [abs_of_pos h]
    split_ifs <;> omega

theorem dictGet_dictSet_self {α : Type} (d : List (String × α)) (k : String)
    (v : α) : Merge.dictGet (Merge.dictSet d k v) k = some v := by
  induction d with
  | nil => simp [Merge.dictSet, Merge.dictGet, List.find?]
  | cons kv rest ih =>
    obtain ⟨k1, v1⟩ := kv
    by_cases hk : k1 = k
    · subst hk
      simp [Merge.dictSet, Merge.dictGet, List.find?]
    · have hb : (k1 == k) = false := beq_eq_false_iff_ne.mpr hk
      simp only [Merge.dictSet, if_neg hk]
      simpa [Merge.dictGet, List.find?, hb] using ih

theorem dictGet_dictSet_ne {α : Type} (d : List (String × α)) (kset k : String)
    (v : α) (hne : kset ≠ k) :
    Merge.dictGet (Merge.dictSet d kset v) k = Merge.dictGet d k := by
  have hbne : (kset == k) = false := beq_eq_false_iff_ne.mpr hne
  induction d with
  | nil => simp [Merge.dictSet, Merge.dictGet, List.find?, hbne]
  | cons kv rest ih =>
    obtain ⟨k1, v1⟩ := kv
    by_cases h1 : k1 = kset
    · subst h1
      simp [Merge.dictSet, Merge.dictGet, List.find?, hbne]
    · simp only [Merge.dictSet, if_neg h1]
      by_cases h2 : k1 = k
      · subst h2
        simp [Merge.dictGet, List.find?]
      · have hb2 : (k1 == k) = false := beq_eq_false_iff_ne.mpr h2
        simpa [Merge.dictGet, List.find?, hb2] using ih

theorem dictGet_eq_none_of_not_mem {α : Type} (d : List (String × α))
    (k : String) (hk : k ∉ d.map Prod.fst) : Merge.dictGet d k = none := by
  induction d with
  | nil => rfl
  | cons kv rest ih =>
    obtain ⟨k1, v1⟩ := kv
    simp only [List.map_cons, List.mem_cons, not_or] at hk
    have h1 : (k1 == k) = false :=
      beq_eq_false_iff_ne.mpr fun h => hk.1 h.symm
    simpa [Merge.dictGet, List.find?, h1] using ih hk.2

/-- C7.  Partial-update merge (`self._last_data.update(data)` in the
coordinator): for a frame with unique keys, merging overwrites exactly
the keys present in the frame — a key present in the frame reads back
the frame's value, and a key absent from the frame reads back its
previous value. -/
theorem claim_C7 {α : Type} (old new : List (String × α)) (k : String)
    (hnd : (new.map Prod.fst).Nodup) :
    (∀ v, Merge.dictGet new k = some v →
      Merge.dictGet (Merge.dictUpdate old new) k = some v) ∧
    (Merge.dictGet new k = none →
      Merge.dictGet (Merge.dictUpdate old new) k = Merge.dictGet old k) := by
  induction new generalizing old with
  | nil =>
    constructor
    · intro v hv
      simp [Merge.dictGet, List.find?] at hv
    · intro _
      rfl
  | cons kv rest ih =>
    obtain ⟨k0, v0⟩ := kv
    have hnd2 : (rest.map Prod.fst).Nodup := (List.nodup_cons.mp hnd).2
    have hk0 : k0 ∉ rest.map Prod.fst := (List.nodup_cons.mp hnd).1
    have hstep : Merge.dictUpdate old ((k0, v0) :: rest) =
        Merge.dictUpdate (Merge.dictSet old k0 v0) rest := rfl
    by_cases hk : k0 = k
    · subst hk
      constructor
      · intro v hv
        have hv0 : v0 = v := by
          simpa [Merge.dictGet, List.find?] using hv
        subst hv0
        rw [hstep]
        have hrest : Merge.dictGet rest k0 = none :=
          dictGet_eq_none_of_not_mem rest k0 hk0
        exact ((ih (Merge.dictSet old k0 v0) hnd2).2 hrest).trans
          (dictGet_dictSet_self old k0 v0)
      · intro hv
        simp [Merge.dictGet, List.find?] at hv
    · have hb : (k0 == k) = false := beq_eq_false_iff_ne.mpr hk
      constructor
      · intro v hv
        have hv2 : Merge.dictGet rest k = some v := by
          simpa [Merge.dictGet, List.find?, hb] using hv
        rw [hstep]
        exact (ih (Merge.dictSet old k0 v0) hnd2).1 v hv2
      · intro hv
        have hv2 : Merge.dictGet rest k = none := by
          simpa [Merge.dictGet, List.find?, hb] using hv
        rw [hstep]
        exact ((ih (Merge.dictSet old k0 v0) hnd2).2 hv2).trans
          (dictGet_dictSet_ne old k0 k v0 hk)

/-- C7 witness: the spec's example — snapshot {a:1, b:2} merged with a
frame decoding only {b:3} reads back b = 3 (overwritten) and a = 1
(retained). -/
theorem claim_C7_witness :
    Merge.dictGet (Merge.dictUpdate [("a", (1 : Int)), ("b", 2)] [("b", 3)])
        "b" = some 3 ∧
    Merge.dictGet (Merge.dictUpdate [("a", (1 : Int)), ("b", 2)] [("b", 3)])
        "a" = some 1 := by
  constructor
  · exact (claim_C7 [("a", (1 : Int)), ("b", 2)] [("b", 3)] "b" (by decide)).1 3
      (by decide)
  · have h := (claim_C7 [("a", (1 : Int)), ("b", 2)] [("b", 3)] "a"
      (by decide)).2 (by decide)
    rw [h]
    decide

/-- C8 (amended).  Write-single command encoding.  protocol.py's builder
behaves as claimed: the frame is the 24-byte header followed by a
payload of exactly four 16-bit big-endian fields — operation count 1,
the register address, value count 1, the value — and the header's
dataLength is 8, the payload length (total frame 32 bytes).  The
esy_inverter_protocol.py builder instead emits only the 2-byte address
and 2-byte value (no operation-count and no value-count field); its
header dataLength is 4, which does equal its own payload length (total
frame 28 bytes), and decodes with funCode 6 and the shifted sourceId
byte 32. -/
theorem claim_C8 (addr value : Nat) (uid : List Nat) (mid cid : Nat)
    (_haddr : addr < 65536) (hvalue : value < 65536)
    (huid : uid.length = 8) (hub : ∀ b ∈ uid, b < 256)
    (hcid : cid < 2 ^ 31) (hmid : mid < 2 ^ 31) :
    (Proto.build_write_command addr value uid mid cid).length = 32 ∧
    (Proto.build_write_command addr value uid mid cid).drop 24 =
      ESY.pack16 1 ++ ESY.pack16 addr ++ ESY.pack16 1 ++ ESY.pack16 value ∧
    Proto.MsgHeader.from_bytes
        (Proto.build_write_command addr value uid mid cid) =
      some ⟨cid, mid, uid, 0, 16, 2048, 8⟩ ∧
    (Esy.build_write_command addr value uid mid cid).length = 28 ∧
    (Esy.build_write_command addr value uid mid cid).drop 24 =
      ESY.pack16 addr ++ ESY.pack16 value ∧
    Esy.MsgHeader.from_bytes
        (Esy.build_write_command addr value uid mid cid) =
      some ⟨cid, mid, uid, 6, 32, 0, 4⟩ := by
  have hwf1 : Proto.MsgHeader.WF ⟨cid, mid, uid, 0, 16, 2048, 8⟩ :=
    ⟨lt_trans hcid (by norm_num), lt_trans hmid (by norm_num), huid, hub,
      by norm_num, by norm_num, by norm_num, by norm_num⟩
  have hwf2 : Esy.MsgHeader.WF ⟨cid, mid, uid, 6, 2, 0, 4⟩ :=
    ⟨hcid, hmid, huid, hub, by norm_num, by norm_num, by norm_num, by norm_num⟩
  have hlen1 : (Proto.MsgHeader.to_bytes ⟨cid, mid, uid, 0, 16, 2048, 8⟩).length
      = 24 := proto_to_bytes_length _ huid
  have hlen2 : (Esy.MsgHeader.to_bytes ⟨cid, mid, uid, 6, 2, 0, 4⟩).length
      = 24 := esy_to_bytes_length _
  have hframe1 : Proto.build_write_command addr value uid mid cid =
      Proto.MsgHeader.to_bytes ⟨cid, mid, uid, 0, 16, 2048, 8⟩ ++
        (ESY.pack16 1 ++ ESY.pack16 addr ++ ESY.pack16 1 ++ ESY.pack16 value) :=
    rfl
  have hv : value % 65536 = value := Nat.mod_eq_of_lt hvalue
  have hframe2 : Esy.build_write_command addr value uid mid cid =
      Esy.MsgHeader.to_bytes ⟨cid, mid, uid, 6, 2, 0, 4⟩ ++
        (ESY.pack16 addr ++ ESY.pack16 value) := by
    simp [Esy.build_write_command, List.append_assoc, hv]
  refine ⟨?_, ?_, ?_, ?_, ?_, ?_⟩
  · rw [hframe1, List.length_append, hlen1]
    simp [ESY.pack16]
  · rw [hframe1, List.drop_left' hlen1]
  · rw [hframe1]
    exact proto_from_bytes_to_bytes_append _ _ hwf1
  · rw [hframe2, List.length_append, hlen2]
    simp [ESY.pack16]
  · rw [hframe2, List.drop_left' hlen2]
  · rw [hframe2]
    have hx := esy_from_bytes_to_bytes_append ⟨cid, mid, uid, 6, 2, 0, 4⟩
      (ESY.pack16 addr ++ ESY.pack16 value) hwf2
    simpa using hx

/-- C8 counterexample: the esy_inverter_protocol.py builder's frame for
address 57, value 1 is 28 bytes and its payload is the 4 bytes
[0, 57, 0, 1] — address then value — not the claimed four 16-bit fields
operation-count 1, address, value-count 1, value. -/
theorem claim_C8_counterexample :
    (Esy.build_write_command 57 1 [0, 0, 0, 0, 0, 0, 0, 0] 0 0).length = 28 ∧
    (Esy.build_write_command 57 1 [0, 0, 0, 0, 0, 0, 0, 0] 0 0).drop 24 =
      [0, 57, 0, 1] ∧
    (Esy.build_write_command 57 1 [0, 0, 0, 0, 0, 0, 0, 0] 0 0).drop 24 ≠
      ESY.pack16 1 ++ ESY.pack16 57 ++ ESY.pack16 1 ++ ESY.pack16 1 := by
  decide

/-- C8 witness: the protocol.py builder at address 57, value 5 with the
default write userId emits the claimed four-field payload. -/
theorem claim_C8_witness :
    (Proto.build_write_command 57 5 Proto.writeUserId 0 0).drop 24 =
      ESY.pack16 1 ++ ESY.pack16 57 ++ ESY.pack16 1 ++ ESY.pack16 5 ∧
    (Proto.build_write_command 57 5 Proto.writeUserId 0 0).length = 32 := by
  have h := claim_C8 57 5 Proto.writeUserId 0 0 (by norm_num) (by norm_num)
    (by decide) (by decide) (by norm_num) (by norm_num)
  exact ⟨h.2.1, h.1⟩

/-- C9 (amended).  Mode-change failure revert: whenever a pending
mode-change request terminates in failure — retry exhaustion on a
confirmation timeout, a dispatch failure during a retry, or a dispatch
failure on the initial write — AND some mode value has been observed on
the telemetry stream, the pending state is cleared and the displayed
mode is restored to that last observed value.  (When no telemetry mode
has ever been observed the code skips the restore and the display keeps
the optimistic value; see the counterexample.) -/
theorem claim_C9 (st : Mode.State) (m : String) (hm : st.actualMode = some m)
    (hne : m ≠ "") :
    (∀ ok : Bool, Mode.truthy st.pendingModeName = true →
      (Mode.maxRetries ≤ st.retryCount ∨ ok = false) →
      (Mode.timeoutFire st ok).currentOption = m ∧
      (Mode.timeoutFire st ok).pendingModeName = none ∧
      (Mode.timeoutFire st ok).isLoading = false) ∧
    (∀ option key, Mode.modesToMqtt option = some key →
      st.actualMode ≠ some option →
      (Mode.selectOption st option false).currentOption = m ∧
      (Mode.selectOption st option false).pendingModeName = none ∧
      (Mode.selectOption st option false).isLoading = false) := by
  have hie : m.isEmpty = false := by
    cases hie2 : m.isEmpty
    · rfl
    · exact absurd ((String.isEmpty_iff m).mp hie2) hne
  have htr : Mode.truthy st.actualMode = true := by
    rw [hm]
    simp [Mode.truthy, hie]
  have htr2 : Mode.truthy (some m) = true := by
    simp [Mode.truthy, hie]
  have hp3 : ∀ p : Option String, Mode.truthy p = true → p ≠ none := by
    intro p hp hno
    rw [hno] at hp
    simp [Mode.truthy] at hp
  constructor
  · intro ok hpend hfail
    have hp2 : st.pendingModeName ≠ none := by
      intro h
      rw [h] at hpend
      simp [Mode.truthy] at hpend
    rcases hfail with hex | hok
    · have hc : ¬(st.retryCount + 1 ≤ Mode.maxRetries) := by
        simp only [Mode.maxRetries] at hex ⊢
        omega
      simp [Mode.timeoutFire, Mode.clearPending, Mode.revertDisplay,
        hpend, hc, htr, htr2, hm, hp2, hie]
    · subst hok
      simp [Mode.timeoutFire, Mode.clearPending, Mode.revertDisplay,
        hpend, htr, htr2, hm, hp2, hie]
  · intro option key hkey hne2
    have hno : m ≠ option := by
      intro h
      rw [hm, h] at hne2
      exact hne2 rfl
    simp [Mode.selectOption, hkey, hne2, Mode.clearPending, Mode.revertDisplay,
      htr, htr2, hm, hie, hno]

/-- C9 counterexample: starting from the initial state (no telemetry
mode ever observed), a user request for "Emergency Mode" enters the
pending state with the optimistic display; after the confirmation
timeout fires three times (two retries, then exhaustion), the pending
state is cleared on failure, yet the display still shows the
unconfirmed optimistic value "Emergency Mode" — the claimed
unconditional restore to a telemetry-observed mode does not happen
because none was ever observed. -/
theorem claim_C9_counterexample :
    (Mode.timeoutFire (Mode.timeoutFire (Mode.timeoutFire
        (Mode.selectOption Mode.initialState "Emergency Mode" true) true) true)
        true).pendingModeName = none ∧
    (Mode.timeoutFire (Mode.timeoutFire (Mode.timeoutFire
        (Mode.selectOption Mode.initialState "Emergency Mode" true) true) true)
        true).isLoading = false ∧
    (Mode.timeoutFire (Mode.timeoutFire (Mode.timeoutFire
        (Mode.selectOption Mode.initialState "Emergency Mode" true) true) true)
        true).currentOption = "Emergency Mode" ∧
    (Mode.timeoutFire (Mode.timeoutFire (Mode.timeoutFire
        (Mode.selectOption Mode.initialState "Emergency Mode" true) true) true)
        true).actualMode = none := by decide

/-- C9 witness: with "Regular Mode" last observed on telemetry and an
"Emergency Mode" request pending at the retry limit, the exhaustion
timeout reverts the display to "Regular Mode" and clears the pending
state. -/
theorem claim_C9_witness :
    (Mode.timeoutFire ⟨some "Emergency Mode", some 4, 2, true,
        "Emergency Mode", some "Regular Mode", true⟩ true).currentOption =
      "Regular Mode" ∧
    (Mode.timeoutFire ⟨some "Emergency Mode", some 4, 2, true,
        "Emergency Mode", some "Regular Mode", true⟩ true).pendingModeName =
      none := by
  have h := (claim_C9 ⟨some "Emergency Mode", some 4, 2, true, "Emergency Mode",
    some "Regular Mode", true⟩ "Regular Mode" rfl (by decide)).1 true
    (by decide) (Or.inl (by decide))
  exact ⟨h.1, h.2.1⟩
